import Mathlib

/-!
Shallow embedding of the pizza e-commerce backend (Express/Drizzle) for
verification of its specification.  Monetary amounts are modelled as `ℚ`
(JavaScript numbers), timestamps as `Int` (epoch milliseconds), ids and
integer counters as `Int`.  Database tables are modelled as lists of
records; a Drizzle `select ... where` returning the first row is
`List.find?`, and an `update ... where eq(t.id, id)` is a `List.map`
guarded on the id.
-/

namespace Pizza

/-- Promotion row (shared schema `promotions` table): unique code, discount
type (`"percentage"` or `"fixed_amount"`), discount value, minimum order
amount, usage cap `maxUsage`, running `usageCount`, active flag and date
range. -/
structure Promotion where
  id : Int
  code : String
  discountType : String
  discountValue : ℚ
  minOrderAmount : ℚ
  maxUsage : Int
  usageCount : Int
  isActive : Bool
  startDate : Int
  endDate : Int
  deriving Repr, DecidableEq

/-- `DatabaseStorage.validatePromotion` (src/server/storage.ts lines
1377-1393): selects the first promotion row matching the conjunction
`eq(code) ∧ isActive ∧ startDate ≤ now ∧ now ≤ endDate ∧
usageCount < maxUsage ∧ minOrderAmount ≤ orderAmount`. -/
def validatePromotion (promotions : List Promotion) (now : Int)
    (code : String) (orderAmount : ℚ) : Option Promotion :=
  promotions.find? (fun p =>
    p.code == code && p.isActive &&
    decide (p.startDate ≤ now) && decide (now ≤ p.endDate) &&
    decide (p.usageCount < p.maxUsage) && decide (p.minOrderAmount ≤ orderAmount))

/-- Discount computation of POST /api/promotions/validate and
POST /api/orders/:id/apply-promotion (src/server/routes/promotions.ts
lines 103-112 and 152-161): percentage type yields
`orderAmount * value / 100`, any other type yields `value`; the result is
clamped by `Math.min` to the order amount. -/
def computeDiscount (discountType : String) (discountValue orderAmount : ℚ) : ℚ :=
  let discountAmount : ℚ :=
    if discountType == "percentage" then orderAmount * discountValue / 100
    else discountValue
  min discountAmount orderAmount

/-- Final amount reported by the validate endpoint
(src/server/routes/promotions.ts line 117): `orderAmount - discountAmount`
after clamping. -/
def finalAmount (discountType : String) (discountValue orderAmount : ℚ) : ℚ :=
  orderAmount - computeDiscount discountType discountValue orderAmount

/-- All five validity conditions of `validatePromotion`, as a proposition
about a stored promotion row. -/
def promotionValid (p : Promotion) (now : Int) (orderAmount : ℚ) : Prop :=
  p.isActive = true ∧ p.startDate ≤ now ∧ now ≤ p.endDate ∧
  p.usageCount < p.maxUsage ∧ p.minOrderAmount ≤ orderAmount

instance (p : Promotion) (now : Int) (orderAmount : ℚ) :
    Decidable (promotionValid p now orderAmount) := by
  unfold promotionValid; infer_instance

/-- User row (loyalty-relevant fields): id and integer loyalty-point
balance. -/
structure User where
  id : Int
  loyaltyPoints : Int
  deriving Repr, DecidableEq

/-- Order row (fields touched by the promotion, loyalty and payment
flows). -/
structure Order where
  id : Int
  userId : Int
  totalAmount : ℚ
  status : String
  paymentId : Option String
  paymentStatus : String
  promotionId : Option Int
  discountAmount : Option ℚ
  loyaltyDiscountAmount : Option ℚ
  loyaltyPointsRedeemed : Option Int
  deriving Repr, DecidableEq

/-- `DatabaseStorage.getUser` (src/server/storage.ts lines 684-687):
first users row with the given id. -/
def getUser (users : List User) (id : Int) : Option User :=
  users.find? (fun u => u.id == id)

/-- `DatabaseStorage.getOrder` (src/server/storage.ts lines 1004-1007):
first orders row with the given id. -/
def getOrder (orders : List Order) (id : Int) : Option Order :=
  orders.find? (fun o => o.id == id)

/-- Drizzle `db.update(orders).set(...).where(eq(orders.id, id))`: apply
the field update to every row with the given id. -/
def updateOrderRow (orders : List Order) (id : Int) (f : Order → Order) : List Order :=
  orders.map (fun o => if o.id == id then f o else o)

/-- Drizzle `db.update(users).set({ loyaltyPoints: pts }).where(eq(users.id,
id))`: write the given balance on every users row with the given id. -/
def setUserLoyaltyPoints (users : List User) (id pts : Int) : List User :=
  users.map (fun u => if u.id == id then { u with loyaltyPoints := pts } else u)

/-- `DatabaseStorage.updateUserLoyaltyPoints` (src/server/storage.ts lines
749-762): reads the current user, ADDS the argument to the current balance
(`newPoints = user.loyaltyPoints + points`) and writes
`newPoints >= 0 ? newPoints : 0`. -/
def updateUserLoyaltyPoints (users : List User) (id points : Int) : List User :=
  match getUser users id with
  | none => users
  | some u =>
    let newPoints := u.loyaltyPoints + points
    setUserLoyaltyPoints users id (if 0 ≤ newPoints then newPoints else 0)

/-- Combined users and orders tables, the state touched by the loyalty
redemption and payment routes. -/
structure AccountState where
  users : List User
  orders : List Order
  deriving Repr, DecidableEq

/-- POST /api/loyalty-points/redeem (src/server/routes/promotions.ts lines
204-281), for an authenticated requester `uid`: zod requires positive
integer `points` and `orderId`; 404 when the user row is missing; 400 when
`user.loyaltyPoints < points`; 404 when the order is missing; 403 when the
order is not the requester's; otherwise the order's loyalty discount is set
to `min(points * 0.1, order.totalAmount)` and
`updateUserLoyaltyPoints(uid, user.loyaltyPoints - points)` is called.
Returns the HTTP status and the resulting state. -/
def redeemLoyaltyPoints (st : AccountState) (uid points orderId : Int) :
    Nat × AccountState :=
  if ¬ (0 < points ∧ 0 < orderId) then (400, st) else
  match getUser st.users uid with
  | none => (404, st)
  | some user =>
    if user.loyaltyPoints < points then (400, st) else
    match getOrder st.orders orderId with
    | none => (404, st)
    | some order =>
      if order.userId ≠ uid then (403, st) else
      let discountAmount : ℚ := (points : ℚ) * (1 / 10)
      let actualDiscount : ℚ := min discountAmount order.totalAmount
      let orders' := updateOrderRow st.orders orderId (fun o =>
        { o with loyaltyDiscountAmount := some actualDiscount,
                 loyaltyPointsRedeemed := some points })
      let users' := updateUserLoyaltyPoints st.users uid (user.loyaltyPoints - points)
      (200, ⟨users', orders'⟩)

/-- POST /api/process-payment (src/server/routes/payment.ts lines
124-200), for an authenticated requester `uid`: zod requires a positive
`amount`; 404 when the order is missing; 403 when it is not the
requester's; 400 when `amount !== order.totalAmount`; otherwise the order
is marked with a fresh payment id and paymentStatus "completed", and
`updateUserLoyaltyPoints(uid, Math.floor(amount / 10))` credits loyalty
points. -/
def processPayment (st : AccountState) (uid orderId : Int) (amount : ℚ)
    (pid : String) : Nat × AccountState :=
  if ¬ (0 < amount) then (400, st) else
  match getOrder st.orders orderId with
  | none => (404, st)
  | some order =>
    if order.userId ≠ uid then (403, st) else
    if amount ≠ order.totalAmount then (400, st) else
    let orders' := updateOrderRow st.orders orderId (fun o =>
      { o with paymentId := some pid, paymentStatus := "completed" })
    let users' := updateUserLoyaltyPoints st.users uid ⌊amount / 10⌋
    (200, ⟨users', orders'⟩)

/-- `DatabaseStorage.getPromotionByCode` (src/server/storage.ts lines
1336-1342): first promotions row with the given code. -/
def getPromotionByCode (promos : List Promotion) (code : String) : Option Promotion :=
  promos.find? (fun p => p.code == code)

/-- Drizzle `db.update(promotions).set(...).where(eq(promotions.id, id))`:
apply the field update to every promotions row with the given id. -/
def updatePromotionRow (promos : List Promotion) (id : Int)
    (f : Promotion → Promotion) : List Promotion :=
  promos.map (fun p => if p.id == id then f p else p)

/-- `DatabaseStorage.incrementPromotionUse` (src/server/storage.ts lines
1364-1375): looks the promotion up with `getPromotionByCode(id.toString())`
(by CODE, passing the numeric id as a string); when nothing matches it
returns without writing, otherwise it writes `usageCount + 1` of the row
found by code onto the rows whose id matches. -/
def incrementPromotionUse (promos : List Promotion) (id : Int) : List Promotion :=
  match getPromotionByCode promos (toString id) with
  | none => promos
  | some p => updatePromotionRow promos id (fun q => { q with usageCount := p.usageCount + 1 })

/-- Orders and promotions tables, the state touched by the apply-promotion
route. -/
structure ApplyState where
  orders : List Order
  promotions : List Promotion
  deriving Repr, DecidableEq

/-- POST /api/orders/:id/apply-promotion (src/server/routes/promotions.ts
lines 126-182), for an authenticated requester `uid`: 404 when the order is
missing; 403 when it is not the requester's; 404 when `validatePromotion`
finds no valid promotion for the order total; otherwise the order's
promotion id and (clamped) discount amount are written and
`incrementPromotionUse(promotion.id)` is called. -/
def applyPromotion (st : ApplyState) (uid orderId : Int) (code : String)
    (now : Int) : Nat × ApplyState :=
  match getOrder st.orders orderId with
  | none => (404, st)
  | some order =>
    if order.userId ≠ uid then (403, st) else
    match validatePromotion st.promotions now code order.totalAmount with
    | none => (404, st)
    | some promotion =>
      let discountAmount := computeDiscount promotion.discountType
        promotion.discountValue order.totalAmount
      let orders' := updateOrderRow st.orders orderId (fun o =>
        { o with promotionId := some promotion.id,
                 discountAmount := some discountAmount })
      let promos' := incrementPromotionUse st.promotions promotion.id
      (200, ⟨orders', promos'⟩)

/-- Catalog item row (pizza bases/sauces/cheeses/toppings all share this
inventory-relevant shape): id, integer stock and low-stock threshold. -/
structure CatalogItem where
  id : Int
  stock : Int
  threshold : Int
  deriving Repr, DecidableEq

/-- `DatabaseStorage.getPizzaBase` / `getPizzaSauce` / `getPizzaCheese` /
`getPizzaTopping` (src/server/storage.ts lines 891-894, 919-922, 946-949,
973-976): first row with the given id. -/
def getItem (items : List CatalogItem) (id : Int) : Option CatalogItem :=
  items.find? (fun i => i.id == id)

/-- `DatabaseStorage.updatePizzaBaseStock` and its sauce/cheese/topping
twins (src/server/storage.ts lines 905-912, 932-939, 959-966, 986-993):
write the given stock value on every row with the given id. -/
def updateItemStock (items : List CatalogItem) (id stock : Int) : List CatalogItem :=
  items.map (fun i => if i.id == id then { i with stock := stock } else i)

/-- One fetch-then-write stock decrement of the POST /api/orders loop
(src/server/storage.ts lines 2200-2244): read the component, and when it
exists write `stock - quantity`; a missing component is skipped. -/
def decrementItemStock (items : List CatalogItem) (qty : Int) (cid : Int) :
    List CatalogItem :=
  match getItem items cid with
  | none => items
  | some c => updateItemStock items cid (c.stock - qty)

/-- Guarded single-component decrement (`if (pizzaDetails.base) {...}` and
the sauce/cheese analogues). -/
def decrementComponent (items : List CatalogItem) (ref : Option Int)
    (qty : Int) : List CatalogItem :=
  match ref with
  | none => items
  | some cid => decrementItemStock items qty cid

/-- Topping loop (`for (const topping of pizzaDetails.toppings)`,
src/server/storage.ts lines 2234-2244): decrement each referenced topping
by the line quantity. -/
def decrementToppings (items : List CatalogItem) (refs : List Int)
    (qty : Int) : List CatalogItem :=
  refs.foldl (fun its tid => decrementItemStock its qty tid) items

/-- Pizza configuration snapshot carried by a cart line: referenced
component ids. -/
structure PizzaDetails where
  base : Option Int
  sauce : Option Int
  cheese : Option Int
  toppings : List Int
  deriving Repr, DecidableEq

/-- One cart line of the POST /api/orders payload: pizza configuration,
client-supplied price and quantity. -/
structure CartLine where
  pizzaDetails : PizzaDetails
  price : ℚ
  quantity : Int
  deriving Repr, DecidableEq

/-- The four catalog tables. -/
structure InvState where
  bases : List CatalogItem
  sauces : List CatalogItem
  cheeses : List CatalogItem
  toppings : List CatalogItem
  deriving Repr, DecidableEq

/-- Stock decrements performed for one cart line (one iteration of the
`for (const item of items)` loop, src/server/storage.ts lines 2197-2245). -/
def decrementLine (st : InvState) (l : CartLine) : InvState :=
  ⟨decrementComponent st.bases l.pizzaDetails.base l.quantity,
   decrementComponent st.sauces l.pizzaDetails.sauce l.quantity,
   decrementComponent st.cheeses l.pizzaDetails.cheese l.quantity,
   decrementToppings st.toppings l.pizzaDetails.toppings l.quantity⟩

/-- The whole stock-decrement loop of POST /api/orders over all cart
lines. -/
def processOrderStock (lines : List CartLine) (st : InvState) : InvState :=
  lines.foldl decrementLine st

/-- zod `orderSchema` of POST /api/orders (src/server/storage.ts lines
2160-2169): positive total, `deliveryAddress` of length at least 5,
`contactNumber` of length at least 10, and on every item a positive price
and a positive integer quantity. -/
def validOrderPayload (totalAmount : ℚ) (deliveryAddress contactNumber : String)
    (items : List CartLine) : Bool :=
  decide (0 < totalAmount) && decide (5 ≤ deliveryAddress.length) &&
  decide (10 ≤ contactNumber.length) &&
  items.all (fun i => decide (0 < i.price) && decide (1 ≤ i.quantity))

/-- POST /api/orders request body. -/
structure OrderPayload where
  totalAmount : ℚ
  deliveryAddress : String
  contactNumber : String
  items : List CartLine
  deriving Repr, DecidableEq

/-- Orders, order items and catalog tables touched by POST /api/orders. -/
structure OrdersState where
  orders : List Order
  orderItems : List (Int × CartLine)
  inv : InvState
  nextOrderId : Int
  deriving Repr, DecidableEq

/-- POST /api/orders (src/server/storage.ts lines 2158-2262), for an
authenticated requester `uid`: a payload failing `orderSchema` is rejected
with 400 and nothing is written; otherwise one order row (status and
paymentStatus "pending"), one order-item row per line, and the stock
decrements of `processOrderStock` are performed, answering 201. -/
def createOrderRoute (uid : Int) (p : OrderPayload) (st : OrdersState) :
    Nat × OrdersState :=
  if ¬ (validOrderPayload p.totalAmount p.deliveryAddress p.contactNumber p.items = true)
  then (400, st)
  else
    let newOrder : Order :=
      ⟨st.nextOrderId, uid, p.totalAmount, "pending", none, "pending",
       none, none, none, none⟩
    (201, ⟨st.orders ++ [newOrder],
           st.orderItems ++ p.items.map (fun l => (st.nextOrderId, l)),
           processOrderStock p.items st.inv,
           st.nextOrderId + 1⟩)

/-- `MemStorage.getLowStockItems` (src/server/storage.ts lines 638-670):
items whose `stock <= threshold`, bases then sauces then cheeses then
toppings. -/
def getLowStockItemsMem (st : InvState) : List CatalogItem :=
  st.bases.filter (fun i => decide (i.stock ≤ i.threshold)) ++
  st.sauces.filter (fun i => decide (i.stock ≤ i.threshold)) ++
  st.cheeses.filter (fun i => decide (i.stock ≤ i.threshold)) ++
  st.toppings.filter (fun i => decide (i.stock ≤ i.threshold))

/-- `DatabaseStorage.getLowStockItems` (src/server/storage.ts lines
1842-1875, the implementation behind the exported `storage`): items whose
`stock < threshold` (strict `lt`), bases then sauces then cheeses then
toppings. -/
def getLowStockItemsDb (st : InvState) : List CatalogItem :=
  st.bases.filter (fun i => decide (i.stock < i.threshold)) ++
  st.sauces.filter (fun i => decide (i.stock < i.threshold)) ++
  st.cheeses.filter (fun i => decide (i.stock < i.threshold)) ++
  st.toppings.filter (fun i => decide (i.stock < i.threshold))

/-- All catalog rows of the four tables. -/
def allCatalogItems (st : InvState) : List CatalogItem :=
  st.bases ++ st.sauces ++ st.cheeses ++ st.toppings

/-- Stock (if present) of the first catalog row with the given id. -/
def stockOf (items : List CatalogItem) (cid : Int) : Option Int :=
  (getItem items cid).map (fun i => i.stock)

/-- Total quantity demanded from a single-reference component (base, sauce
or cheese selected by `sel`) with id `cid` across the cart lines. -/
def componentDemand (sel : CartLine → Option Int) (cid : Int)
    (lines : List CartLine) : Int :=
  (lines.map (fun l => if sel l = some cid then l.quantity else 0)).sum

/-- Total quantity demanded from topping `cid` across the cart lines (a
line contributes its quantity once per occurrence of the topping id). -/
def toppingDemand (cid : Int) (lines : List CartLine) : Int :=
  (lines.map (fun l => ((l.pizzaDetails.toppings.count cid : Int)) * l.quantity)).sum

/-- User subscription row (fields touched by the lifecycle routes). -/
structure UserSubscription where
  id : Int
  userId : Int
  planId : Int
  status : String
  cancelDate : Option Int
  deriving Repr, DecidableEq

/-- `DatabaseStorage.getUserSubscription` (src/server/storage.ts lines
1269-1272): first user-subscriptions row with the given id. -/
def getUserSubscription (subs : List UserSubscription) (id : Int) :
    Option UserSubscription :=
  subs.find? (fun s => s.id == id)

/-- Drizzle `db.update(userSubscriptions).set(...).where(eq(id))`: apply
the field update to every row with the given id. -/
def updateSubscriptionRow (subs : List UserSubscription) (id : Int)
    (f : UserSubscription → UserSubscription) : List UserSubscription :=
  subs.map (fun s => if s.id == id then f s else s)

/-- `DatabaseStorage.cancelUserSubscription` (src/server/storage.ts lines
1301-1311): unconditionally writes status "cancelled" and the cancel
date. -/
def cancelUserSubscription (subs : List UserSubscription) (id now : Int) :
    List UserSubscription :=
  updateSubscriptionRow subs id (fun s =>
    { s with status := "cancelled", cancelDate := some now })

/-- `DatabaseStorage.pauseUserSubscription` (src/server/storage.ts lines
1313-1320): unconditionally writes status "paused". -/
def pauseUserSubscription (subs : List UserSubscription) (id : Int) :
    List UserSubscription :=
  updateSubscriptionRow subs id (fun s => { s with status := "paused" })

/-- `DatabaseStorage.resumeUserSubscription` (src/server/storage.ts lines
1322-1329): unconditionally writes status "active". -/
def resumeUserSubscription (subs : List UserSubscription) (id : Int) :
    List UserSubscription :=
  updateSubscriptionRow subs id (fun s => { s with status := "active" })

/-- POST /api/user-subscriptions/:id/resume (src/unnamed/part_000 lines
289-319): 404 when the subscription is missing, 403 when it is not the
requester's, otherwise `resumeUserSubscription` — with NO check of the
current status. -/
def resumeSubscriptionRoute (subs : List UserSubscription) (uid sid : Int) :
    Nat × List UserSubscription :=
  match getUserSubscription subs sid with
  | none => (404, subs)
  | some sub =>
    if sub.userId ≠ uid then (403, subs)
    else (200, resumeUserSubscription subs sid)

/-- POST /api/user-subscriptions/:id/pause (src/unnamed/part_000 lines
256-286): same shape as resume, calling `pauseUserSubscription`. -/
def pauseSubscriptionRoute (subs : List UserSubscription) (uid sid : Int) :
    Nat × List UserSubscription :=
  match getUserSubscription subs sid with
  | none => (404, subs)
  | some sub =>
    if sub.userId ≠ uid then (403, subs)
    else (200, pauseUserSubscription subs sid)

end Pizza

namespace Pizza

/-- `find?` commutes with a `map` that leaves the predicate unchanged. -/
theorem find?_map_pres {α : Type} (l : List α) (g : α → α) (p : α → Bool)
    (hg : ∀ a, p (g a) = p a) :
    List.find? p (l.map g) = (List.find? p l).map g := by
  induction l with
  | nil => rfl
  | cons a l ih =>
    cases ha : p a with
    | true => simp [List.find?_cons, hg, ha]
    | false => simp [List.find?_cons, hg, ha, ih]

/-- Looking up an order after an id-preserving row update returns the
updated row. -/
theorem getOrder_updateOrderRow (orders : List Order) (id : Int) (f : Order → Order)
    (hf : ∀ o, (f o).id = o.id) (o : Order) (h : getOrder orders id = some o) :
    getOrder (updateOrderRow orders id f) id = some (f o) := by
  unfold getOrder at h
  unfold getOrder updateOrderRow
  have ho : o.id = id := by simpa using List.find?_some h
  rw [find?_map_pres _ _ _ (fun a => ?_), h]
  · simp [ho]
  · by_cases ha : a.id = id
    · simp [ha, hf]
    · simp [ha]

/-- Looking up a user after writing their balance returns the row with the
written balance. -/
theorem getUser_setUserLoyaltyPoints (users : List User) (id pts : Int)
    (u : User) (h : getUser users id = some u) :
    getUser (setUserLoyaltyPoints users id pts) id =
      some { u with loyaltyPoints := pts } := by
  unfold getUser at h
  unfold getUser setUserLoyaltyPoints
  have hu : u.id = id := by simpa using List.find?_some h
  rw [find?_map_pres _ _ _ (fun a => ?_), h]
  · simp [hu]
  · by_cases ha : a.id = id
    · simp [ha]
    · simp [ha]

/-- C1: for a stored promotion with the queried code and a positive order
amount, `validatePromotion` returns the promotion iff it is active, the
current time lies in `[startDate, endDate]`, `usageCount < maxUsage` and
`minOrderAmount ≤ orderAmount`; when any one condition fails it returns no
match. -/
theorem C1_validatePromotion_iff (p : Promotion) (now : Int) (orderAmount : ℚ)
    (_hpos : 0 < orderAmount) :
    (validatePromotion [p] now p.code orderAmount = some p ↔
      promotionValid p now orderAmount) ∧
    (¬ promotionValid p now orderAmount →
      validatePromotion [p] now p.code orderAmount = none) := by
  unfold validatePromotion promotionValid
  simp only [List.find?_singleton]
  by_cases h1 : p.isActive = true <;>
  by_cases h2 : p.startDate ≤ now <;>
  by_cases h3 : now ≤ p.endDate <;>
  by_cases h4 : p.usageCount < p.maxUsage <;>
  by_cases h5 : p.minOrderAmount ≤ orderAmount <;>
  simp [h1, h2, h3, h4, h5]

/-- Witness for C1 at a concrete promotion: code SAVE20, 20 percent off,
active over `[0, 100]`, used 3 of 10 times, minimum order 50, queried at
time 10 with order amount 100. -/
theorem C1_validatePromotion_iff_witness :
    (0 : ℚ) < 100 ∧
    ((validatePromotion [⟨5, "SAVE20", "percentage", 20, 50, 10, 3, true, 0, 100⟩]
        10 "SAVE20" 100 =
      some ⟨5, "SAVE20", "percentage", 20, 50, 10, 3, true, 0, 100⟩ ↔
      promotionValid ⟨5, "SAVE20", "percentage", 20, 50, 10, 3, true, 0, 100⟩ 10 100) ∧
    (¬ promotionValid ⟨5, "SAVE20", "percentage", 20, 50, 10, 3, true, 0, 100⟩ 10 100 →
      validatePromotion [⟨5, "SAVE20", "percentage", 20, 50, 10, 3, true, 0, 100⟩]
        10 "SAVE20" 100 = none)) :=
  ⟨by norm_num,
   C1_validatePromotion_iff ⟨5, "SAVE20", "percentage", 20, 50, 10, 3, true, 0, 100⟩
     10 100 (by norm_num)⟩

/-- C4: a percentage promotion discounts `orderAmount * value / 100`, a
fixed promotion discounts `value`, the discount is clamped to the order
amount, the reported final amount is never negative when the order amount
is non-negative, and the two spec examples hold: 20 percent of 100 gives
discount 20 and final 80; fixed 500 on 100 gives discount 100 and final 0. -/
theorem C4_discount_computation :
    (∀ v A : ℚ, computeDiscount "percentage" v A = min (A * v / 100) A) ∧
    (∀ v A : ℚ, computeDiscount "fixed_amount" v A = min v A) ∧
    (∀ t : String, ∀ v A : ℚ, computeDiscount t v A ≤ A) ∧
    (∀ t : String, ∀ v A : ℚ, 0 ≤ finalAmount t v A) ∧
    computeDiscount "percentage" 20 100 = 20 ∧
    finalAmount "percentage" 20 100 = 80 ∧
    computeDiscount "fixed_amount" 500 100 = 100 ∧
    finalAmount "fixed_amount" 500 100 = 0 := by
  refine ⟨fun v A => rfl, fun v A => rfl, fun t v A => min_le_right _ _,
    fun t v A => ?_, by norm_num [computeDiscount], by norm_num [finalAmount, computeDiscount],
    by norm_num [computeDiscount], by norm_num [finalAmount, computeDiscount]⟩
  unfold finalAmount computeDiscount
  simp only [sub_nonneg]
  exact min_le_right _ _

end Pizza

namespace Pizza

/-- C2: the loyalty-redeem route is bugged on the balance update.  For user
7 with balance 100 redeeming 50 points on their own order 42 (total 200),
the request is accepted (200), the order's loyalty discount is set to
`min(50 * 0.1, 200) = 5`, but the balance afterward is 150, not
`100 - 50 = 50`: the route passes the intended new absolute balance
`user.loyaltyPoints - points` to `updateUserLoyaltyPoints`, which ADDS its
argument to the current balance. -/
theorem C2_loyalty_redeem_balance_bug :
    redeemLoyaltyPoints
        ⟨[⟨7, 100⟩], [⟨42, 7, 200, "pending", none, "pending", none, none, none, none⟩]⟩
        7 50 42 =
      (200, ⟨[⟨7, 150⟩],
             [⟨42, 7, 200, "pending", none, "pending", none, none, some 5, some 50⟩]⟩) ∧
    (150 : Int) ≠ 100 - 50 := by
  have hmin : min ((50 : ℚ) * (1 / 10)) 200 = 5 := by norm_num
  refine ⟨?_, by decide⟩
  rw [redeemLoyaltyPoints]
  norm_num [getUser, getOrder, List.find?, updateOrderRow, updateUserLoyaltyPoints,
    setUserLoyaltyPoints, hmin]

/-- C10: for an existing order owned by the requester with positive total
and a non-negative requester balance, POST /api/process-payment rejects a
mismatched amount with 400 leaving the state unchanged, and on an exact
match marks the order's payment completed with the fresh payment id and
credits `⌊amount / 10⌋` loyalty points. -/
theorem C10_process_payment (st : AccountState) (uid orderId : Int) (amount : ℚ)
    (pid : String) (order : Order) (user : User)
    (horder : getOrder st.orders orderId = some order)
    (hown : order.userId = uid)
    (huser : getUser st.users uid = some user)
    (hbal : 0 ≤ user.loyaltyPoints)
    (htot : 0 < order.totalAmount) :
    (amount ≠ order.totalAmount → processPayment st uid orderId amount pid = (400, st)) ∧
    (amount = order.totalAmount →
      (processPayment st uid orderId amount pid).1 = 200 ∧
      getOrder (processPayment st uid orderId amount pid).2.orders orderId =
        some { order with paymentId := some pid, paymentStatus := "completed" } ∧
      getUser (processPayment st uid orderId amount pid).2.users uid =
        some { user with loyaltyPoints := user.loyaltyPoints + ⌊amount / 10⌋ }) := by
  constructor
  · intro hne
    by_cases hpos : 0 < amount
    · simp [processPayment, hpos, horder, hown, hne]
    · simp [processPayment, hpos]
  · intro heq
    have hpos : 0 < amount := by rw [heq]; exact htot
    have h200 : processPayment st uid orderId amount pid =
        (200, ⟨updateUserLoyaltyPoints st.users uid ⌊amount / 10⌋,
               updateOrderRow st.orders orderId (fun o =>
                 { o with paymentId := some pid, paymentStatus := "completed" })⟩) := by
      simp [processPayment, hpos, horder, hown, heq, htot]
    rw [h200]
    refine ⟨rfl, ?_, ?_⟩
    · exact getOrder_updateOrderRow st.orders orderId
        (fun o => { o with paymentId := some pid, paymentStatus := "completed" })
        (fun o => rfl) order horder
    · show getUser (updateUserLoyaltyPoints st.users uid ⌊amount / 10⌋) uid = _
      have hfloor : 0 ≤ ⌊amount / 10⌋ :=
        Int.floor_nonneg.mpr (div_nonneg hpos.le (by norm_num))
      simp only [updateUserLoyaltyPoints, huser]
      rw [if_pos (add_nonneg hbal hfloor)]
      exact getUser_setUserLoyaltyPoints _ _ _ _ huser

/-- Witness for C10: user 7 with balance 0 pays exactly 97 on their own
order 42 (total 97): status 200 and 9 loyalty points credited. -/
theorem C10_process_payment_witness :
    (processPayment
        ⟨[⟨7, 0⟩], [⟨42, 7, 97, "pending", none, "pending", none, none, none, none⟩]⟩
        7 42 97 "pay_1").1 = 200 ∧
    getUser (processPayment
        ⟨[⟨7, 0⟩], [⟨42, 7, 97, "pending", none, "pending", none, none, none, none⟩]⟩
        7 42 97 "pay_1").2.users 7 = some ⟨7, 9⟩ := by
  have h := C10_process_payment
    ⟨[⟨7, 0⟩], [⟨42, 7, 97, "pending", none, "pending", none, none, none, none⟩]⟩
    7 42 97 "pay_1"
    ⟨42, 7, 97, "pending", none, "pending", none, none, none, none⟩ ⟨7, 0⟩
    rfl rfl rfl (by norm_num) (by norm_num)
  refine ⟨(h.2 rfl).1, ?_⟩
  rw [(h.2 rfl).2.2]
  norm_num

/-- C3: the usage counter is NOT incremented by a successful
apply-promotion.  For promotion id 5 with code SAVE20 and usageCount 0,
applied by user 7 to their own order 42 (total 100): the request succeeds
(200) and the order's promotion and discount fields are set, but the
promotions table is returned unchanged — `incrementPromotionUse` looks the
promotion up by code using the string "5", finds no row, and never writes —
so the counter stays 0 instead of becoming 0 + 1. -/
theorem C3_apply_promotion_usage_not_incremented :
    applyPromotion
        ⟨[⟨42, 7, 100, "pending", none, "pending", none, none, none, none⟩],
         [⟨5, "SAVE20", "percentage", 20, 0, 10, 0, true, 0, 100⟩]⟩
        7 42 "SAVE20" 10 =
      (200, ⟨[⟨42, 7, 100, "pending", none, "pending", some 5, some 20, none, none⟩],
             [⟨5, "SAVE20", "percentage", 20, 0, 10, 0, true, 0, 100⟩]⟩) ∧
    (0 : Int) ≠ 0 + 1 := by
  refine ⟨?_, by decide⟩
  have hbc : getPromotionByCode
      [⟨5, "SAVE20", "percentage", 20, 0, 10, 0, true, 0, 100⟩]
      (toString (5 : Int)) = none := by decide
  rw [applyPromotion]
  norm_num [getOrder, List.find?, validatePromotion, computeDiscount,
    updateOrderRow, incrementPromotionUse, hbc]

/-- C7 counterexample: a pizza base with stock exactly at its threshold
(20 = 20) is NOT included in the low-stock list computed by the exported
`DatabaseStorage.getLowStockItems`, which uses a strict comparison; the
claim that an item with stock equal to its threshold is included is false
on the live implementation. -/
theorem C7_threshold_item_excluded_by_db :
    getLowStockItemsDb ⟨[⟨1, 20, 20⟩], [], [], []⟩ = [] ∧
    (⟨1, 20, 20⟩ : CatalogItem) ∉ getLowStockItemsDb ⟨[⟨1, 20, 20⟩], [], [], []⟩ ∧
    (⟨1, 20, 20⟩ : CatalogItem) ∈ getLowStockItemsMem ⟨[⟨1, 20, 20⟩], [], [], []⟩ := by
  refine ⟨by decide, ?_, by decide⟩
  intro hmem
  simp [getLowStockItemsDb] at hmem

/-- C7 amended: `MemStorage.getLowStockItems` includes a catalog item
exactly when its stock is at or below its threshold, but the
`DatabaseStorage` implementation behind the exported `storage` includes it
exactly when its stock is strictly below its threshold, so an item whose
stock equals its threshold is excluded there. -/
theorem C7_low_stock_membership (st : InvState) (i : CatalogItem) :
    (i ∈ getLowStockItemsDb st ↔ i ∈ allCatalogItems st ∧ i.stock < i.threshold) ∧
    (i ∈ getLowStockItemsMem st ↔ i ∈ allCatalogItems st ∧ i.stock ≤ i.threshold) := by
  constructor
  · simp only [getLowStockItemsDb, allCatalogItems, List.mem_append, List.mem_filter,
      decide_eq_true_eq]
    tauto
  · simp only [getLowStockItemsMem, allCatalogItems, List.mem_append, List.mem_filter,
      decide_eq_true_eq]
    tauto

/-- C6 counterexample: a POST /api/orders payload whose delivery address
"123 Main." has only 9 characters is ACCEPTED (201, order row created):
the schema requires only `min(5)` on the address, so the claim that every
address under 10 characters is rejected with 400 is false. -/
theorem C6_nine_char_address_accepted :
    ("123 Main.".length < 10) = True ∧
    (createOrderRoute 7 ⟨100, "123 Main.", "0123456789", []⟩
        ⟨[], [], ⟨[], [], [], []⟩, 1⟩).1 = 201 ∧
    (createOrderRoute 7 ⟨100, "123 Main.", "0123456789", []⟩
        ⟨[], [], ⟨[], [], [], []⟩, 1⟩).2.orders =
      [⟨1, 7, 100, "pending", none, "pending", none, none, none, none⟩] := by
  have hval : validOrderPayload 100 "123 Main." "0123456789" [] = true := by decide
  refine ⟨by decide, ?_, ?_⟩ <;> simp [createOrderRoute, hval, processOrderStock]

/-- C6 amended: a POST /api/orders payload whose delivery address is
shorter than 5 characters (the schema's actual minimum) is rejected with
400 and no order row, order items or stock writes are made. -/
theorem C6_short_address_rejected (uid : Int) (p : OrderPayload) (st : OrdersState)
    (h : p.deliveryAddress.length < 5) :
    createOrderRoute uid p st = (400, st) := by
  have hlen : ¬ (5 ≤ p.deliveryAddress.length) := by omega
  have hval : validOrderPayload p.totalAmount p.deliveryAddress p.contactNumber
      p.items = false := by
    unfold validOrderPayload
    simp [hlen]
  simp [createOrderRoute, hval]

/-- Witness for C6 amended: the 3-character address "abc" is rejected with
400 and the state is unchanged. -/
theorem C6_short_address_rejected_witness :
    "abc".length < 5 ∧
    createOrderRoute 7 ⟨100, "abc", "0123456789", []⟩
        ⟨[], [], ⟨[], [], [], []⟩, 1⟩ =
      (400, ⟨[], [], ⟨[], [], [], []⟩, 1⟩) :=
  ⟨by decide, C6_short_address_rejected 7 ⟨100, "abc", "0123456789", []⟩
    ⟨[], [], ⟨[], [], [], []⟩, 1⟩ (by decide)⟩

/-- Looking up a catalog item after writing its stock returns the row with
the written stock. -/
theorem getItem_updateItemStock_self (items : List CatalogItem) (cid ns : Int)
    (c : CatalogItem) (h : getItem items cid = some c) :
    getItem (updateItemStock items cid ns) cid = some { c with stock := ns } := by
  unfold getItem at h
  unfold getItem updateItemStock
  have hc : c.id = cid := by simpa using List.find?_some h
  rw [find?_map_pres _ _ _ (fun a => ?_), h]
  · simp [hc]
  · by_cases ha : a.id = cid
    · simp [ha]
    · simp [ha]

/-- Writing the stock of one id leaves lookups of any other id unchanged. -/
theorem getItem_updateItemStock_ne (items : List CatalogItem) (cid ns cid' : Int)
    (hne : cid' ≠ cid) :
    getItem (updateItemStock items cid ns) cid' = getItem items cid' := by
  unfold getItem updateItemStock
  rw [find?_map_pres _ _ _ (fun a => ?_)]
  · cases hfind : List.find? (fun i => i.id == cid') items with
    | none => rfl
    | some c =>
      have hc : c.id = cid' := by simpa using List.find?_some hfind
      simp [hc, hne]
  · by_cases ha : a.id = cid
    · simp [ha]
    · simp [ha]

/-- A fetch-then-write decrement subtracts the quantity from the stock of
an existing component. -/
theorem stockOf_decrementItemStock_self (items : List CatalogItem)
    (qty cid s : Int) (h : stockOf items cid = some s) :
    stockOf (decrementItemStock items qty cid) cid = some (s - qty) := by
  unfold stockOf at h ⊢
  cases hget : getItem items cid with
  | none => rw [hget] at h; simp at h
  | some c =>
    rw [hget] at h
    simp only [Option.map_some'] at h
    have hs : c.stock = s := by injection h
    unfold decrementItemStock
    rw [hget, getItem_updateItemStock_self items cid (c.stock - qty) c hget, hs]
    rfl

/-- A fetch-then-write decrement of one id leaves the stock of any other id
unchanged. -/
theorem stockOf_decrementItemStock_ne (items : List CatalogItem)
    (qty cid cid' : Int) (hne : cid' ≠ cid) :
    stockOf (decrementItemStock items qty cid) cid' = stockOf items cid' := by
  unfold stockOf decrementItemStock
  cases hget : getItem items cid with
  | none => rfl
  | some c => rw [getItem_updateItemStock_ne items cid (c.stock - qty) cid' hne]

/-- Effect of one guarded component decrement on an existing stock: minus
the quantity when the line references this id, unchanged otherwise. -/
theorem stockOf_decrementComponent (items : List CatalogItem)
    (ref : Option Int) (qty cid s : Int) (h : stockOf items cid = some s) :
    stockOf (decrementComponent items ref qty) cid =
      some (s - (if ref = some cid then qty else 0)) := by
  cases ref with
  | none => simpa [decrementComponent] using h
  | some r =>
    by_cases hr : r = cid
    · subst hr
      simpa [decrementComponent] using stockOf_decrementItemStock_self items qty r s h
    · rw [decrementComponent, stockOf_decrementItemStock_ne items qty r cid
        (fun hc => hr hc.symm), h]
      simp [hr]

/-- Effect of the topping loop of one line on an existing topping stock:
minus quantity times the number of references to this id. -/
theorem stockOf_decrementToppings (refs : List Int) (items : List CatalogItem)
    (qty cid s : Int) (h : stockOf items cid = some s) :
    stockOf (decrementToppings items refs qty) cid =
      some (s - (refs.count cid) * qty) := by
  induction refs generalizing items s with
  | nil => simpa [decrementToppings] using h
  | cons r rs ih =>
    by_cases hr : r = cid
    · subst hr
      have h1 := stockOf_decrementItemStock_self items qty r s h
      have h2 := ih (decrementItemStock items qty r) (s - qty) h1
      rw [decrementToppings] at h2
      rw [decrementToppings, List.foldl_cons, h2, List.count_cons_self]
      congr 1
      push_cast
      ring
    · have h1 : stockOf (decrementItemStock items qty r) cid = some s := by
        rw [stockOf_decrementItemStock_ne items qty r cid (fun hc => hr hc.symm), h]
      have h2 := ih (decrementItemStock items qty r) s h1
      rw [decrementToppings] at h2
      rw [decrementToppings, List.foldl_cons, h2,
        List.count_cons_of_ne (fun hc => hr hc.symm)]

/-- The bases table after the whole loop is the fold of the per-line base
decrements. -/
theorem processOrderStock_bases (lines : List CartLine) (st : InvState) :
    (processOrderStock lines st).bases =
      lines.foldl (fun its l => decrementComponent its l.pizzaDetails.base l.quantity)
        st.bases := by
  induction lines generalizing st with
  | nil => rfl
  | cons l ls ih => exact ih (decrementLine st l)

/-- The sauces table after the whole loop is the fold of the per-line sauce
decrements. -/
theorem processOrderStock_sauces (lines : List CartLine) (st : InvState) :
    (processOrderStock lines st).sauces =
      lines.foldl (fun its l => decrementComponent its l.pizzaDetails.sauce l.quantity)
        st.sauces := by
  induction lines generalizing st with
  | nil => rfl
  | cons l ls ih => exact ih (decrementLine st l)

/-- The cheeses table after the whole loop is the fold of the per-line
cheese decrements. -/
theorem processOrderStock_cheeses (lines : List CartLine) (st : InvState) :
    (processOrderStock lines st).cheeses =
      lines.foldl (fun its l => decrementComponent its l.pizzaDetails.cheese l.quantity)
        st.cheeses := by
  induction lines generalizing st with
  | nil => rfl
  | cons l ls ih => exact ih (decrementLine st l)

/-- The toppings table after the whole loop is the fold of the per-line
topping loops. -/
theorem processOrderStock_toppings (lines : List CartLine) (st : InvState) :
    (processOrderStock lines st).toppings =
      lines.foldl (fun its l => decrementToppings its l.pizzaDetails.toppings l.quantity)
        st.toppings := by
  induction lines generalizing st with
  | nil => rfl
  | cons l ls ih => exact ih (decrementLine st l)

/-- Folding the per-line decrements of a single-reference component over
all lines subtracts the total demand from an existing stock. -/
theorem stockOf_foldl_component (sel : CartLine → Option Int)
    (lines : List CartLine) (items : List CatalogItem) (cid s : Int)
    (h : stockOf items cid = some s) :
    stockOf (lines.foldl (fun its l => decrementComponent its (sel l) l.quantity) items)
        cid = some (s - componentDemand sel cid lines) := by
  induction lines generalizing items s with
  | nil => simpa [componentDemand] using h
  | cons l ls ih =>
    have h1 := stockOf_decrementComponent items (sel l) l.quantity cid s h
    have h2 := ih (decrementComponent items (sel l) l.quantity) _ h1
    have hd : componentDemand sel cid (l :: ls) =
        (if sel l = some cid then l.quantity else 0) + componentDemand sel cid ls := by
      simp [componentDemand]
    rw [List.foldl_cons, h2, hd, sub_sub]

/-- Folding the per-line topping loops over all lines subtracts the total
topping demand from an existing stock. -/
theorem stockOf_foldl_toppings (lines : List CartLine)
    (items : List CatalogItem) (cid s : Int) (h : stockOf items cid = some s) :
    stockOf (lines.foldl
        (fun its l => decrementToppings its l.pizzaDetails.toppings l.quantity) items)
        cid = some (s - toppingDemand cid lines) := by
  induction lines generalizing items s with
  | nil => simpa [toppingDemand] using h
  | cons l ls ih =>
    have h1 := stockOf_decrementToppings l.pizzaDetails.toppings items l.quantity cid s h
    have h2 := ih (decrementToppings items l.pizzaDetails.toppings l.quantity) _ h1
    have hd : toppingDemand cid (l :: ls) =
        ((l.pizzaDetails.toppings.count cid : Int)) * l.quantity + toppingDemand cid ls := by
      simp [toppingDemand]
    rw [List.foldl_cons, h2, hd, sub_sub]

/-- C5: on every accepted POST /api/orders, each referenced existing
catalog component's stock afterward equals its stock before minus the total
quantity demanded of it by the cart lines (for a component referenced by a
single line, exactly that line's quantity); the decrement is unconditional:
in the concrete instance a base with stock 1 referenced by a line of
quantity 2 is left with stored stock -1. -/
theorem C5_order_stock_decrement :
    (∀ (uid : Int) (p : OrderPayload) (st : OrdersState) (cid s : Int),
      validOrderPayload p.totalAmount p.deliveryAddress p.contactNumber p.items = true →
      stockOf st.inv.bases cid = some s →
      stockOf (createOrderRoute uid p st).2.inv.bases cid =
        some (s - componentDemand (fun l => l.pizzaDetails.base) cid p.items)) ∧
    (∀ (uid : Int) (p : OrderPayload) (st : OrdersState) (cid s : Int),
      validOrderPayload p.totalAmount p.deliveryAddress p.contactNumber p.items = true →
      stockOf st.inv.sauces cid = some s →
      stockOf (createOrderRoute uid p st).2.inv.sauces cid =
        some (s - componentDemand (fun l => l.pizzaDetails.sauce) cid p.items)) ∧
    (∀ (uid : Int) (p : OrderPayload) (st : OrdersState) (cid s : Int),
      validOrderPayload p.totalAmount p.deliveryAddress p.contactNumber p.items = true →
      stockOf st.inv.cheeses cid = some s →
      stockOf (createOrderRoute uid p st).2.inv.cheeses cid =
        some (s - componentDemand (fun l => l.pizzaDetails.cheese) cid p.items)) ∧
    (∀ (uid : Int) (p : OrderPayload) (st : OrdersState) (cid s : Int),
      validOrderPayload p.totalAmount p.deliveryAddress p.contactNumber p.items = true →
      stockOf st.inv.toppings cid = some s →
      stockOf (createOrderRoute uid p st).2.inv.toppings cid =
        some (s - toppingDemand cid p.items)) ∧
    stockOf (createOrderRoute 7
        ⟨100, "123 Main St", "0123456789", [⟨⟨some 1, none, none, []⟩, 100, 2⟩]⟩
        ⟨[], [], ⟨[⟨1, 1, 20⟩], [], [], []⟩, 1⟩).2.inv.bases 1 = some (-1) := by
  refine ⟨?_, ?_, ?_, ?_, by decide⟩ <;>
  · intro uid p st cid s hval h
    simp only [createOrderRoute, hval, not_true_eq_false, if_neg, not_false_eq_true]
    first
    | (rw [processOrderStock_bases]; exact stockOf_foldl_component _ _ _ _ _ h)
    | (rw [processOrderStock_sauces]; exact stockOf_foldl_component _ _ _ _ _ h)
    | (rw [processOrderStock_cheeses]; exact stockOf_foldl_component _ _ _ _ _ h)
    | (rw [processOrderStock_toppings]; exact stockOf_foldl_toppings _ _ _ _ h)

/-- Witness for C5: base 1 with stock 10, one cart line referencing it with
quantity 2, valid payload: stock afterward is 10 minus the demand. -/
theorem C5_order_stock_decrement_witness :
    validOrderPayload 100 "123 Main St" "0123456789"
      [⟨⟨some 1, none, none, []⟩, 100, 2⟩] = true ∧
    stockOf [⟨1, 10, 20⟩] 1 = some 10 ∧
    stockOf (createOrderRoute 7
        ⟨100, "123 Main St", "0123456789", [⟨⟨some 1, none, none, []⟩, 100, 2⟩]⟩
        ⟨[], [], ⟨[⟨1, 10, 20⟩], [], [], []⟩, 1⟩).2.inv.bases 1 =
      some (10 - componentDemand (fun l => l.pizzaDetails.base) 1
        [⟨⟨some 1, none, none, []⟩, 100, 2⟩]) :=
  ⟨by decide, by decide,
   C5_order_stock_decrement.1 7
     ⟨100, "123 Main St", "0123456789", [⟨⟨some 1, none, none, []⟩, 100, 2⟩]⟩
     ⟨[], [], ⟨[⟨1, 10, 20⟩], [], [], []⟩, 1⟩ 1 10 (by decide) (by decide)⟩

/-- Looking up a subscription after an id-preserving row update returns the
updated row. -/
theorem getUserSubscription_updateSubscriptionRow (subs : List UserSubscription)
    (id : Int) (f : UserSubscription → UserSubscription)
    (hf : ∀ s, (f s).id = s.id) (sub : UserSubscription)
    (h : getUserSubscription subs id = some sub) :
    getUserSubscription (updateSubscriptionRow subs id f) id = some (f sub) := by
  unfold getUserSubscription at h
  unfold getUserSubscription updateSubscriptionRow
  have hs : sub.id = id := by simpa using List.find?_some h
  rw [find?_map_pres _ _ _ (fun a => ?_), h]
  · simp [hs]
  · by_cases ha : a.id = id
    · simp [ha, hf]
    · simp [ha]

/-- C8 counterexample: the status "cancelled" is NOT terminal.  For the
cancelled subscription 1 owned by user 7, the resume route succeeds and
overwrites the status with "active": the routes and storage operations
perform no check of the current status. -/
theorem C8_cancelled_subscription_resumed :
    resumeSubscriptionRoute [⟨1, 7, 3, "cancelled", some 0⟩] 7 1 =
      (200, [⟨1, 7, 3, "active", some 0⟩]) ∧
    ("active" : String) ≠ "cancelled" := by
  exact ⟨by decide, by decide⟩

/-- C8 amended: subscription status writes are unguarded; a resume request
by the owner of any existing subscription — whatever its current status,
including "cancelled" — answers 200 and sets the status to "active", so
"cancelled" is not terminal. -/
theorem C8_resume_overwrites_any_status (subs : List UserSubscription)
    (uid sid : Int) (sub : UserSubscription)
    (h : getUserSubscription subs sid = some sub) (hown : sub.userId = uid) :
    (resumeSubscriptionRoute subs uid sid).1 = 200 ∧
    getUserSubscription (resumeSubscriptionRoute subs uid sid).2 sid =
      some { sub with status := "active" } := by
  have h200 : resumeSubscriptionRoute subs uid sid =
      (200, resumeUserSubscription subs sid) := by
    simp [resumeSubscriptionRoute, h, hown]
  rw [h200]
  exact ⟨rfl,
    getUserSubscription_updateSubscriptionRow subs sid
      (fun s => { s with status := "active" }) (fun s => rfl) sub h⟩

/-- Witness for C8 amended at a cancelled subscription: resume answers 200
and the stored status becomes "active". -/
theorem C8_resume_overwrites_any_status_witness :
    (resumeSubscriptionRoute [⟨1, 7, 3, "cancelled", some 0⟩] 7 1).1 = 200 ∧
    getUserSubscription
        (resumeSubscriptionRoute [⟨1, 7, 3, "cancelled", some 0⟩] 7 1).2 1 =
      some ⟨1, 7, 3, "active", some 0⟩ :=
  C8_resume_overwrites_any_status [⟨1, 7, 3, "cancelled", some 0⟩] 7 1
    ⟨1, 7, 3, "cancelled", some 0⟩ (by decide) rfl

/-- C9: for any existing subscription, pause followed by resume leaves the
row with status "active" and its planId and userId unchanged. -/
theorem C9_pause_resume_roundtrip (subs : List UserSubscription) (sid : Int)
    (sub : UserSubscription) (h : getUserSubscription subs sid = some sub) :
    getUserSubscription
        (resumeUserSubscription (pauseUserSubscription subs sid) sid) sid =
      some { sub with status := "active" } ∧
    ({ sub with status := "active" } : UserSubscription).planId = sub.planId ∧
    ({ sub with status := "active" } : UserSubscription).userId = sub.userId := by
  have h1 := getUserSubscription_updateSubscriptionRow subs sid
    (fun s => { s with status := "paused" }) (fun s => rfl) sub h
  have h2 := getUserSubscription_updateSubscriptionRow
    (updateSubscriptionRow subs sid (fun s => { s with status := "paused" })) sid
    (fun s => { s with status := "active" }) (fun s => rfl) _ h1
  exact ⟨h2, rfl, rfl⟩

/-- Witness for C9 at a concrete active subscription. -/
theorem C9_pause_resume_roundtrip_witness :
    getUserSubscription
        (resumeUserSubscription (pauseUserSubscription
          [⟨1, 7, 3, "active", none⟩] 1) 1) 1 =
      some ⟨1, 7, 3, "active", none⟩ ∧
    (⟨1, 7, 3, "active", none⟩ : UserSubscription).planId = 3 ∧
    (⟨1, 7, 3, "active", none⟩ : UserSubscription).userId = 7 :=
  C9_pause_resume_roundtrip [⟨1, 7, 3, "active", none⟩] 1
    ⟨1, 7, 3, "active", none⟩ (by decide)

end Pizza
